import Mathlib

/-!
Verification of the HTLC escrow and swap-coordinator logic of the
sui-fusion-1inch-mvp repository.

The on-chain part is a shallow embedding of the Move module
`htlc_escrow::escrow` (src/docs/htlc_escrow/sources/htlc_escrow.move):
`deposit`, `withdraw`, `refund`, `get_remaining_amount`, `is_fully_filled`,
the `Escrow` object and its events.  Move aborts become `Except.error`
values whose constructors record the abort site (the numeric abort code of
each `assert!`, or the abort raised inside `sui::balance::split` when the
requested amount exceeds the held balance).  `u64` values are modelled as
`Nat`: every arithmetic operation the module performs on reachable states
is bounded by the deposited amount, so no Move overflow abort is reachable
and the `Nat` semantics agrees with the `u64` semantics.

The off-chain part embeds the coordinator fragments of
src/scripts/real_swap.js that the claims refer to: the order produced by
`OneinchFusionClient.createFusionOrder` (its `secret`, `secretHash` and
`expiresAt` fields) and the deposit-then-claim flow of
`executeCrossChainSwap` with the timelock constant it chooses.

The hash function (`sui::hash::blake2b256` on chain) enters only through
the comparison `hash::blake2b256(&secret) == escrow.secret_hash`, so the
whole development is parameterised by an arbitrary `H : Bytes → Bytes`;
closed instances use the stand-in `idHash`.
-/

namespace HtlcEscrow

/-- Byte strings (`vector<u8>` in Move): lists of naturals. -/
abbrev Bytes := List Nat

/-- Sui addresses, abstracted to naturals. -/
abbrev Address := Nat

/-- `AuctionParams` struct of `htlc_escrow::escrow` (lines 20-26). -/
structure AuctionParams where
  min_amount : Nat
  max_amount : Nat
  start_time : Nat
  end_time : Nat
  resolver_fee : Nat
deriving Repr, DecidableEq

/-- The `Escrow<T>` object (lines 29-40).  `id` models the object UID,
`balance` the value of the held `Balance<T>`. -/
structure Escrow where
  id : Nat
  initiator : Address
  redeemer : Address
  secret_hash : Bytes
  amount : Nat
  balance : Nat
  timelock : Nat
  auction_params : AuctionParams
  partial_fills_allowed : Bool
  total_filled : Nat
deriving Repr, DecidableEq

/-- The events of the module (lines 43-67), with `order_id` modelling
`object::uid_to_bytes(&escrow.id)`.  Note which constructors carry the
secret: `Redeemed` has a `secret` field, `PartialFill` does not. -/
inductive Event where
  | Initiated (order_id : Nat) (secret_hash : Bytes) (amount : Nat)
      (initiator : Address) (redeemer : Address) (timelock : Nat)
  | Redeemed (order_id : Nat) (secret : Bytes) (amount : Nat) (redeemer : Address)
  | Refunded (order_id : Nat) (amount : Nat) (initiator : Address)
  | PartialFill (order_id : Nat) (filled_amount : Nat) (remaining_amount : Nat)
      (redeemer : Address)
deriving Repr, DecidableEq

/-- `deposit` (lines 70-103).  The Move function performs no validation at
all: it converts the coin into a balance, builds the escrow with
`amount := balance::value(&balance)` and `total_filled := 0`, emits
`Initiated`, and returns the escrow.  The `&Clock` argument is bound as
`_clock` and never read; `_clock_now` mirrors it.  `uid` models the fresh
object id produced by `object::new(ctx)`, `coin_value` the value of the
deposited `Coin<T>`. -/
def deposit (initiator redeemer : Address) (secret_hash : Bytes) (coin_value : Nat)
    (timelock : Nat) (auction_params : AuctionParams) (partial_fills_allowed : Bool)
    (_clock_now : Nat) (uid : Nat) : Escrow × Event :=
  let escrow : Escrow :=
    { id := uid
      initiator := initiator
      redeemer := redeemer
      secret_hash := secret_hash
      amount := coin_value
      balance := coin_value
      timelock := timelock
      auction_params := auction_params
      partial_fills_allowed := partial_fills_allowed
      total_filled := 0 }
  (escrow, Event.Initiated uid secret_hash escrow.amount initiator redeemer timelock)

/-- The ways `withdraw` can abort, in source order: the four `assert!`s of
lines 112-115 (abort codes 1000, 1001, 1004, 1005) and the abort raised by
`balance::split` (line 117) when `amount` exceeds the held balance
(`sui::balance::ENotEnough`). -/
inductive WithdrawError where
  | hashCheck       -- abort 1000: `hash::blake2b256(&secret) != escrow.secret_hash`
  | redeemerOnly    -- abort 1001: sender is not the redeemer
  | amountCheck     -- abort 1004: `amount > escrow.amount`
  | nonZeroAmount   -- abort 1005: `amount == 0`
  | balanceNotEnough -- abort inside `balance::split`: `amount > balance value`
deriving Repr, DecidableEq

/-- `withdraw` (lines 106-141): hash check, redeemer check, amount checks,
split of the balance, update of `total_filled`, and the event — `Redeemed`
(carrying the secret) exactly when the escrow became fully filled,
`PartialFill` (carrying no secret) otherwise.  `sender` models
`tx_context::sender(ctx)`; the withdrawn coin is transferred to it, which
the model reflects by the decrease of `balance`.  The function takes no
clock: the Move entry has no time argument and reads no time. -/
def withdraw (H : Bytes → Bytes) (e : Escrow) (secret : Bytes) (amount : Nat)
    (sender : Address) : Except WithdrawError (Escrow × Event) :=
  if H secret ≠ e.secret_hash then Except.error WithdrawError.hashCheck
  else if sender ≠ e.redeemer then Except.error WithdrawError.redeemerOnly
  else if ¬ amount ≤ e.amount then Except.error WithdrawError.amountCheck
  else if ¬ 0 < amount then Except.error WithdrawError.nonZeroAmount
  else if ¬ amount ≤ e.balance then Except.error WithdrawError.balanceNotEnough
  else
    let e2 : Escrow := { e with balance := e.balance - amount
                                total_filled := e.total_filled + amount }
    if e2.total_filled = e2.amount then
      Except.ok (e2, Event.Redeemed e2.id secret amount sender)
    else
      Except.ok (e2, Event.PartialFill e2.id amount (e2.amount - e2.total_filled) sender)

/-- The ways `refund` can abort: the two `assert!`s of lines 149-150
(abort codes 1002 and 1003). -/
inductive RefundError where
  | timeCheck      -- abort 1002: `clock::timestamp_ms(clock) <= escrow.timelock`
  | initiatorOnly  -- abort 1003: sender is not the initiator
deriving Repr, DecidableEq

/-- `refund` (lines 144-165): time check, initiator check, then — only when
the remaining balance is positive — split of the whole remaining balance,
`Refunded` event and transfer back to the sender.  When the remaining
balance is zero the function succeeds without doing anything and without
emitting any event.  `total_filled` is never touched. -/
def refund (e : Escrow) (clock_now : Nat) (sender : Address) :
    Except RefundError (Escrow × Option Event) :=
  if ¬ e.timelock < clock_now then Except.error RefundError.timeCheck
  else if sender ≠ e.initiator then Except.error RefundError.initiatorOnly
  else
    let remaining_amount := e.balance
    if 0 < remaining_amount then
      Except.ok ({ e with balance := 0 },
                 some (Event.Refunded e.id remaining_amount sender))
    else
      Except.ok (e, none)

/-- `get_remaining_amount` (lines 168-170). -/
def get_remaining_amount (e : Escrow) : Nat := e.balance

/-- `is_fully_filled` (lines 173-175). -/
def is_fully_filled (e : Escrow) : Bool := e.total_filled == e.amount

/-- Executing the `withdraw` entry in a transaction at ledger time
`ledger_now`: the Move function takes no `&Clock` and reads no time, so the
ledger runs exactly `withdraw`, whatever the current time is. -/
def withdrawAtTime (H : Bytes → Bytes) (ledger_now : Nat) (e : Escrow)
    (secret : Bytes) (amount : Nat) (sender : Address) :
    Except WithdrawError (Escrow × Event) :=
  withdraw H e secret amount sender

/-- Which secret, if any, an external watcher of the ledger can read out of
an emitted event: only `Redeemed` has a field holding preimage bytes. -/
def eventRevealedSecret : Event → Option Bytes
  | Event.Redeemed _ s _ _ => some s
  | _ => none

/-- Modelled from the spec: the error names §4.2 gives the claim
transition (`BadSecret`, `Unauthorized`, `AmountOutOfRange`,
`PartialNotAllowed`, `Expired`), used to compare the code's abort sites
with the spec's error classes. -/
inductive SpecClaimError where
  | BadSecret
  | Unauthorized
  | AmountOutOfRange
  | PartialNotAllowed
  | Expired
deriving Repr, DecidableEq

/-- Modelled from the spec: §4.5's `ContractReject{code}` mapping of
on-chain abort codes to the §4.2 error classes.  `AmountOutOfRange` is
defined there as `requested_amount == 0 or > remaining`; abort 1005 is the
`== 0` case, the `balance::split` abort is the `> remaining` case, and
abort 1004 (`amount > deposited`) implies `amount > remaining` since
`remaining ≤ deposited`. -/
def specClaimErrorOf : WithdrawError → SpecClaimError
  | WithdrawError.hashCheck => SpecClaimError.BadSecret
  | WithdrawError.redeemerOnly => SpecClaimError.Unauthorized
  | WithdrawError.amountCheck => SpecClaimError.AmountOutOfRange
  | WithdrawError.nonZeroAmount => SpecClaimError.AmountOutOfRange
  | WithdrawError.balanceNotEnough => SpecClaimError.AmountOutOfRange

/-- The order object returned by `OneinchFusionClient.createFusionOrder`
(src/scripts/real_swap.js lines 543-556), restricted to the fields the
claims are about.  The source computes
`secretHash: crypto.randomBytes(32).toString('hex')` and
`secret: crypto.randomBytes(32).toString('hex')` — two independent random
draws — and `expiresAt: Date.now() + (30 * 60 * 1000)`; the model takes
the two draws as the inputs `randDraw1` (the first call, stored as the
hash) and `randDraw2` (the second call, stored as the secret). -/
structure FusionOrder where
  secretHash : Bytes
  secret : Bytes
  expiresAt : Nat
deriving Repr, DecidableEq

/-- `createFusionOrder`'s construction of the returned order from the two
32-byte random draws and the current time. -/
def createFusionOrder (randDraw1 randDraw2 : Bytes) (now : Nat) : FusionOrder :=
  { secretHash := randDraw1
    secret := randDraw2
    expiresAt := now + 30 * 60 * 1000 }

/-- The timelock `executeCrossChainSwap` chooses for the Sui escrow
(src/scripts/real_swap.js line 1037): `Date.now() + (20 * 60 * 1000)`.
The route `POST /api/swap/lock` uses the same constant. -/
def swapEscrowTimelock (now : Nat) : Nat := now + 20 * 60 * 1000

/-- The deposit-then-claim core of `executeCrossChainSwap`
(src/scripts/real_swap.js lines 1026-1071): create the order, deposit a
Sui escrow whose `secret_hash` is the order's `secretHash` (redeemer the
ETH address, `partial_fills_allowed` hard-coded `true`, timelock
`swapEscrowTimelock now`), then claim it with the order's `secret` for the
full amount.  `claimSender` models the signer of the claim transaction. -/
def executeCrossChainSwapClaim (H : Bytes → Bytes) (randDraw1 randDraw2 : Bytes)
    (suiAddr ethAddr claimSender : Address) (requiredSui now uid : Nat)
    (ap : AuctionParams) : Except WithdrawError (Escrow × Event) :=
  let order := createFusionOrder randDraw1 randDraw2 now
  let escrow := (deposit suiAddr ethAddr order.secretHash requiredSui
      (swapEscrowTimelock now) ap true now uid).1
  withdraw H escrow order.secret requiredSui claimSender

instance {ε α : Type} [DecidableEq ε] [DecidableEq α] : DecidableEq (Except ε α) := fun a b =>
  match a, b with
  | Except.error x, Except.error y =>
      if h : x = y then isTrue (by rw [h]) else isFalse (by intro hc; cases hc; exact h rfl)
  | Except.error _, Except.ok _ => isFalse (by intro hc; cases hc)
  | Except.ok _, Except.error _ => isFalse (by intro hc; cases hc)
  | Except.ok x, Except.ok y =>
      if h : x = y then isTrue (by rw [h]) else isFalse (by intro hc; cases hc; exact h rfl)

/-- Stand-in hash function for closed instances: the development is
parameterised by an arbitrary `H : Bytes → Bytes` in place of the
on-chain `sui::hash::blake2b256`, and closed counterexamples and witnesses
instantiate it with the identity so that hash-matching pairs can be
written down. -/
def idHash : Bytes → Bytes := fun b => b

/-- Sample auction parameters for closed instances. -/
def apSample : AuctionParams :=
  { min_amount := 100, max_amount := 1000, start_time := 1000,
    end_time := 2000, resolver_fee := 10 }

/-- Sample escrow: 100 units deposited by address 1 for redeemer 2 under
hash `[7]`, timelock 1000, partial fills allowed. -/
def escBase : Escrow := (deposit 1 2 [7] 100 1000 apSample true 0 5).1

/-- Sample escrow after a successful partial claim of 30 units. -/
def escMid : Escrow := { escBase with balance := 70, total_filled := 30 }

/-- `escMid` after a successful refund of the remaining 70 units. -/
def escRefunded : Escrow := { escMid with balance := 0 }

/-- Sample escrow with `partial_fills_allowed = false`. -/
def escNoPartial : Escrow := (deposit 1 2 [7] 100 1000 apSample false 0 5).1

/-- `escBase` after a successful full claim of all 100 units. -/
def escDrained : Escrow := { escBase with balance := 0, total_filled := 100 }

/-- A 2-unit escrow (hash `[7]`, redeemer 2) after claims totalling 2. -/
def escSmallDone : Escrow :=
  { id := 5, initiator := 1, redeemer := 2, secret_hash := [7], amount := 2,
    balance := 0, timelock := 1000, auction_params := apSample,
    partial_fills_allowed := true, total_filled := 2 }

/-- A sequence of claims against one escrow: fold `withdraw` over a list of
requested amounts, all with the same secret and sender, stopping at the
first abort. -/
def runClaims (H : Bytes → Bytes) (secret : Bytes) (sender : Address) :
    Escrow → List Nat → Option Escrow
  | e, [] => some e
  | e, a :: rest =>
    match withdraw H e secret a sender with
    | Except.ok (e', _) => runClaims H secret sender e' rest
    | Except.error _ => none

/-- Inversion for a successful `withdraw`: all five checks passed and the
new escrow is the old one with the balance split off and `total_filled`
increased. -/
theorem withdraw_ok_elim {H : Bytes → Bytes} {e : Escrow} {s : Bytes} {a : Nat}
    {snd : Address} {e' : Escrow} {ev : Event}
    (h : withdraw H e s a snd = Except.ok (e', ev)) :
    H s = e.secret_hash ∧ snd = e.redeemer ∧ a ≤ e.amount ∧ 0 < a ∧ a ≤ e.balance ∧
    e' = { e with balance := e.balance - a, total_filled := e.total_filled + a } := by
  unfold withdraw at h
  split_ifs at h with h1 h2 h3 h4 h5
  have e1 : H s = e.secret_hash := by tauto
  have e2 : snd = e.redeemer := by tauto
  have e3 : a ≤ e.amount := by tauto
  have e4 : 0 < a := by tauto
  have e5 : a ≤ e.balance := by tauto
  dsimp only [] at h
  split at h <;>
  · simp only [Except.ok.injEq, Prod.mk.injEq] at h
    exact ⟨e1, e2, e3, e4, e5, h.1.symm⟩

/-- A `withdraw` whose five checks pass succeeds and produces the updated
escrow, with the event determined by whether the fill became full. -/
theorem withdraw_ok_intro (H : Bytes → Bytes) (e : Escrow) (s : Bytes) (a : Nat)
    (snd : Address) (hh : H s = e.secret_hash) (hs : snd = e.redeemer)
    (ha : a ≤ e.amount) (h0 : 0 < a) (hb : a ≤ e.balance) :
    withdraw H e s a snd = Except.ok
      ({ e with balance := e.balance - a, total_filled := e.total_filled + a },
       if e.total_filled + a = e.amount then Event.Redeemed e.id s a snd
       else Event.PartialFill e.id a (e.amount - (e.total_filled + a)) snd) := by
  unfold withdraw
  rw [if_neg (by simp [hh]), if_neg (by simp [hs]), if_neg (by omega),
      if_neg (by omega), if_neg (by omega)]
  dsimp only []
  split <;> rfl

/-- What a successful run of claims does to the escrow: the immutable
fields are preserved, the claimed amounts fit inside the starting balance,
and `total_filled` increases by exactly their sum. -/
theorem runClaims_ok (H : Bytes → Bytes) (secret : Bytes) (sender : Address)
    (amounts : List Nat) :
    ∀ e e' : Escrow, runClaims H secret sender e amounts = some e' →
      e'.amount = e.amount ∧ e'.secret_hash = e.secret_hash ∧
      e'.redeemer = e.redeemer ∧ e'.balance + amounts.sum = e.balance ∧
      e'.total_filled = e.total_filled + amounts.sum := by
  induction amounts with
  | nil =>
    intro e e' h
    simp only [runClaims] at h
    cases h
    simp
  | cons a rest ih =>
    intro e e' h
    rw [runClaims] at h
    cases hw : withdraw H e secret a sender with
    | error err => rw [hw] at h; cases h
    | ok p =>
      obtain ⟨e1, ev⟩ := p
      rw [hw] at h
      obtain ⟨_, _, _, _, hb, he1⟩ := withdraw_ok_elim hw
      obtain ⟨g1, g2, g3, g4, g5⟩ := ih e1 e' h
      have f1 : e1.amount = e.amount := by rw [he1]
      have f2 : e1.secret_hash = e.secret_hash := by rw [he1]
      have f3 : e1.redeemer = e.redeemer := by rw [he1]
      have f4 : e1.balance = e.balance - a := by rw [he1]
      have f5 : e1.total_filled = e.total_filled + a := by rw [he1]
      simp only [List.sum_cons]
      exact ⟨g1.trans f1, g2.trans f2, g3.trans f3, by omega, by omega⟩

/-- When the order's two independent random draws do not happen to satisfy
`H(secret) = secretHash`, the claim step of the swap flow aborts at the
hash check (abort 1000). -/
theorem swapClaim_hash_abort (H : Bytes → Bytes) (r1 r2 : Bytes)
    (suiAddr ethAddr claimSender : Address) (requiredSui now uid : Nat)
    (ap : AuctionParams) (hne : H r2 ≠ r1) :
    executeCrossChainSwapClaim H r1 r2 suiAddr ethAddr claimSender requiredSui
      now uid ap = Except.error WithdrawError.hashCheck := by
  unfold executeCrossChainSwapClaim createFusionOrder deposit withdraw
  dsimp only []
  rw [if_pos hne]

/-- C1.  The coordinator's order-creation operation draws `secretHash` and
`secret` as two independent 32-byte random values, so for every hash
function `H` — in particular for the `blake2b256` the on-chain withdraw
check applies — there are draws (indeed, all but a measure-`2^-256` set of
them) for which the stored `secret_hash` is not `H(secret)`, and the swap
flow's own claim step then aborts at the escrow's hash check (abort 1000):
the hash committed at deposit does not match what the claim path expects. -/
theorem fusionOrder_secretHash_not_hash_of_secret (H : Bytes → Bytes) (now : Nat)
    (suiAddr ethAddr claimSender : Address) (requiredSui uid : Nat)
    (ap : AuctionParams) :
    ∃ randDraw1 randDraw2 : Bytes,
      randDraw1.length = 32 ∧ randDraw2.length = 32 ∧
      (createFusionOrder randDraw1 randDraw2 now).secretHash ≠
        H ((createFusionOrder randDraw1 randDraw2 now).secret) ∧
      executeCrossChainSwapClaim H randDraw1 randDraw2 suiAddr ethAddr
        claimSender requiredSui now uid ap =
        Except.error WithdrawError.hashCheck := by
  by_cases hc : H (List.replicate 32 0) = List.replicate 32 0
  · refine ⟨List.replicate 32 1, List.replicate 32 0, by simp, by simp, ?_, ?_⟩
    · show List.replicate 32 1 ≠ H (List.replicate 32 0)
      rw [hc]
      decide
    · exact swapClaim_hash_abort H _ _ suiAddr ethAddr claimSender requiredSui
        now uid ap (by rw [hc]; decide)
  · refine ⟨List.replicate 32 0, List.replicate 32 0, by simp, by simp, ?_, ?_⟩
    · show List.replicate 32 0 ≠ H (List.replicate 32 0)
      exact fun hcontra => hc hcontra.symm
    · exact swapClaim_hash_abort H _ _ suiAddr ethAddr claimSender requiredSui
        now uid ap (fun hcontra => hc hcontra)

/-- C2 counterexample.  A concrete escrow with timelock 1000, and a claim
executed at ledger time 2000 — strictly after the timelock, with the
refund window open — which succeeds instead of failing `Expired`: the
on-chain withdraw has no time check at all. -/
theorem claim_after_timelock_succeeds_cex :
    escBase.timelock < 2000 ∧
    withdrawAtTime idHash 2000 escBase [7] 100 2 =
      Except.ok (escDrained, Event.Redeemed 5 [7] 100 2) := by decide

/-- C2 amended.  The withdraw entry performs no timelock check: a claim
with the right secret, by the redeemer, for a positive amount within the
deposited amount and the held balance, succeeds at every ledger time —
in particular at any time strictly after the timelock, when the refund
window is already open. -/
theorem withdraw_succeeds_after_timelock (H : Bytes → Bytes) (ledger_now : Nat)
    (e : Escrow) (secret : Bytes) (amount : Nat) (sender : Address)
    (hexp : e.timelock < ledger_now)
    (hh : H secret = e.secret_hash) (hs : sender = e.redeemer)
    (ha : amount ≤ e.amount) (h0 : 0 < amount) (hb : amount ≤ e.balance) :
    ∃ ev, withdrawAtTime H ledger_now e secret amount sender =
      Except.ok ({ e with balance := e.balance - amount,
                          total_filled := e.total_filled + amount }, ev) :=
  ⟨_, withdraw_ok_intro H e secret amount sender hh hs ha h0 hb⟩

/-- C2 witness: the amended theorem applied at ledger time 2000 to the
sample escrow with timelock 1000. -/
theorem withdraw_succeeds_after_timelock_witness :
    ∃ ev, withdrawAtTime idHash 2000 escBase [7] 100 2 =
      Except.ok ({ escBase with
                   balance := escBase.balance - 100,
                   total_filled := escBase.total_filled + 100 }, ev) :=
  withdraw_succeeds_after_timelock idHash 2000 escBase [7] 100 2 (by decide)
    (by decide) (by decide) (by decide) (by decide) (by decide)

/-- C3 counterexample.  Deposit 100, claim 30, then refund the remaining
70 after the timelock: both transitions succeed, yet afterwards
`total_filled + balance = 30 + 0 ≠ 100 = amount` — the refund transition
breaks the invariant, because it zeroes the balance without touching
`total_filled`. -/
theorem invariant_broken_by_refund_cex :
    withdraw idHash escBase [7] 30 2 =
      Except.ok (escMid, Event.PartialFill 5 30 70 2) ∧
    refund escMid 1001 1 =
      Except.ok (escRefunded, some (Event.Refunded 5 70 1)) ∧
    escRefunded.total_filled + escRefunded.balance ≠ escRefunded.amount := by
  decide

/-- C3 amended.  After a deposit and any sequence of successful claims —
no refund — the accounting invariant `total_filled + balance = amount`
holds. -/
theorem invariant_preserved_by_claims (H : Bytes → Bytes) (uid : Nat)
    (i r : Address) (sh secret : Bytes) (v t now : Nat) (ap : AuctionParams)
    (b : Bool) (amounts : List Nat) (e' : Escrow)
    (hrun : runClaims H secret r ((deposit i r sh v t ap b now uid).1) amounts
      = some e') :
    e'.total_filled + e'.balance = e'.amount := by
  obtain ⟨g1, _, _, g4, g5⟩ := runClaims_ok H secret r amounts _ e' hrun
  simp only [deposit] at g1 g4 g5
  omega

/-- C3 witness: the amended invariant at the sample escrow after the
deposit of 100 and one successful claim of 30. -/
theorem invariant_preserved_by_claims_witness :
    escMid.total_filled + escMid.balance = escMid.amount :=
  invariant_preserved_by_claims idHash 5 1 2 [7] [7] 100 1000 0 apSample true
    [30] escMid (by decide)

/-- C4 counterexample.  An escrow with `partial_fills_allowed = false` and
remaining balance 100: a claim for 40 — strictly less than the remaining
balance — succeeds (emitting a `PartialFill` event) instead of failing
`PartialNotAllowed`: the withdraw entry never reads the flag. -/
theorem partial_claim_despite_flag_cex :
    escNoPartial.partial_fills_allowed = false ∧
    40 < get_remaining_amount escNoPartial ∧
    withdraw idHash escNoPartial [7] 40 2 =
      Except.ok ({ escNoPartial with balance := 60, total_filled := 40 },
        Event.PartialFill 5 40 60 2) := by
  decide

/-- C4 amended.  The withdraw entry ignores `partial_fills_allowed`: on an
escrow whose flag is `false`, every claim with a valid secret, by the
redeemer, for a positive amount within the deposited amount and the held
balance succeeds — a claim for exactly the remaining balance and a claim
for strictly less than it alike. -/
theorem withdraw_ignores_partial_fills_flag (H : Bytes → Bytes) (e : Escrow)
    (secret : Bytes) (amount : Nat) (sender : Address)
    (hflag : e.partial_fills_allowed = false)
    (hh : H secret = e.secret_hash) (hs : sender = e.redeemer)
    (ha : amount ≤ e.amount) (h0 : 0 < amount) (hb : amount ≤ e.balance) :
    ∃ ev, withdraw H e secret amount sender =
      Except.ok ({ e with balance := e.balance - amount,
                          total_filled := e.total_filled + amount }, ev) :=
  ⟨_, withdraw_ok_intro H e secret amount sender hh hs ha h0 hb⟩

/-- C4 witness: the amended theorem applied to the sample
no-partial-fills escrow with a claim for 40 of the remaining 100. -/
theorem withdraw_ignores_partial_fills_flag_witness :
    ∃ ev, withdraw idHash escNoPartial [7] 40 2 =
      Except.ok ({ escNoPartial with
                   balance := escNoPartial.balance - 40,
                   total_filled := escNoPartial.total_filled + 40 }, ev) :=
  withdraw_ignores_partial_fills_flag idHash escNoPartial [7] 40 2 (by decide)
    (by decide) (by decide) (by decide) (by decide) (by decide)

/-- C5 counterexample.  A fully-claimed escrow (remaining balance 0): a
refund at time 1001 — after the timelock 1000 — by the initiator succeeds
as a no-op (no transfer, no event) instead of failing `NothingToRefund`. -/
theorem refund_of_empty_escrow_succeeds_cex :
    get_remaining_amount escDrained = 0 ∧
    escDrained.timelock < 1001 ∧
    refund escDrained 1001 1 = Except.ok (escDrained, none) := by decide

/-- C5 amended.  The complete case analysis of `refund`: it fails the time
check (abort 1002) whenever the ledger time is at most the timelock — in
particular at exactly the timelock — then fails the initiator check
(abort 1003) for any other caller; otherwise it succeeds: when the
remaining balance is positive it transfers all of it back to the caller,
emits `Refunded` and leaves the balance 0, and when the remaining balance
is already 0 it succeeds without doing anything — there is no
`NothingToRefund` failure. -/
theorem refund_behaviour (e : Escrow) (clock_now : Nat) (sender : Address) :
    (clock_now ≤ e.timelock →
      refund e clock_now sender = Except.error RefundError.timeCheck) ∧
    (e.timelock < clock_now → sender ≠ e.initiator →
      refund e clock_now sender = Except.error RefundError.initiatorOnly) ∧
    (e.timelock < clock_now → sender = e.initiator → 0 < e.balance →
      refund e clock_now sender =
        Except.ok ({ e with balance := 0 },
          some (Event.Refunded e.id e.balance sender))) ∧
    (e.timelock < clock_now → sender = e.initiator → e.balance = 0 →
      refund e clock_now sender = Except.ok (e, none)) := by
  refine ⟨?_, ?_, ?_, ?_⟩
  · intro h1
    unfold refund
    rw [if_pos (by omega)]
  · intro h1 h2
    unfold refund
    rw [if_neg (by omega), if_pos h2]
  · intro h1 h2 h3
    unfold refund
    rw [if_neg (by omega), if_neg (by simp [h2])]
    dsimp only []
    rw [if_pos h3]
  · intro h1 h2 h3
    unfold refund
    rw [if_neg (by omega), if_neg (by simp [h2])]
    dsimp only []
    rw [if_neg (by omega)]

/-- C5 witness: the four branches of the amended theorem at concrete
inputs — too early at exactly the timelock, wrong caller, a successful
refund of a positive remainder, and the no-op success on an empty
escrow. -/
theorem refund_behaviour_witness :
    refund escBase 1000 1 = Except.error RefundError.timeCheck ∧
    refund escBase 1001 9 = Except.error RefundError.initiatorOnly ∧
    refund escMid 1001 1 =
      Except.ok ({ escMid with balance := 0 },
        some (Event.Refunded escMid.id escMid.balance 1)) ∧
    refund escDrained 1001 1 = Except.ok (escDrained, none) :=
  ⟨(refund_behaviour escBase 1000 1).1 (by decide),
   (refund_behaviour escBase 1001 9).2.1 (by decide) (by decide),
   (refund_behaviour escMid 1001 1).2.2.1 (by decide) (by decide) (by decide),
   (refund_behaviour escDrained 1001 1).2.2.2 (by decide) (by decide) (by decide)⟩

/-- C6.  With `partial_fills_allowed = true`, any sequence of successful
claims against one escrow has amounts summing to at most the deposited
amount; when the sum reaches exactly the deposited amount the escrow is
fully filled (`is_fully_filled` returns `true`), and a further claim of
one more unit fails, with an abort that falls in the spec's
`AmountOutOfRange` class (the requested amount exceeds the remaining
balance: the abort is the one raised by `balance::split`, or the amount
check 1004 in the degenerate zero-deposit case). -/
theorem partial_claims_sum_bounded (H : Bytes → Bytes) (uid : Nat)
    (i r : Address) (sh secret : Bytes) (d t now : Nat) (ap : AuctionParams)
    (amounts : List Nat) (e' : Escrow)
    (hh : H secret = sh)
    (hrun : runClaims H secret r ((deposit i r sh d t ap true now uid).1) amounts
      = some e') :
    amounts.sum ≤ d ∧
    (amounts.sum = d →
      is_fully_filled e' = true ∧
      ∃ err, withdraw H e' secret 1 r = Except.error err ∧
        specClaimErrorOf err = SpecClaimError.AmountOutOfRange) := by
  obtain ⟨g1, g2, g3, g4, g5⟩ := runClaims_ok H secret r amounts _ e' hrun
  simp only [deposit] at g1 g2 g3 g4 g5
  constructor
  · omega
  · intro hsum
    have hbal : e'.balance = 0 := by omega
    have htf : e'.total_filled = e'.amount := by omega
    constructor
    · simp [is_fully_filled, htf]
    · by_cases hd : d = 0
      · refine ⟨WithdrawError.amountCheck, ?_, rfl⟩
        unfold withdraw
        rw [if_neg (by simp [hh, g2]), if_neg (by simp [g3]),
            if_pos (by omega)]
      · refine ⟨WithdrawError.balanceNotEnough, ?_, rfl⟩
        unfold withdraw
        rw [if_neg (by simp [hh, g2]), if_neg (by simp [g3]),
            if_neg (by omega), if_neg (by omega), if_pos (by omega)]

/-- C6 witness: a 2-unit escrow, two partial claims of 1 each; their sum 2
is bounded by and reaches the deposit, the escrow ends fully filled, and a
further 1-unit claim aborts in the `AmountOutOfRange` class. -/
theorem partial_claims_sum_bounded_witness :
    ([1, 1] : List Nat).sum ≤ 2 ∧
    (([1, 1] : List Nat).sum = 2 →
      is_fully_filled escSmallDone = true ∧
      ∃ err, withdraw idHash escSmallDone [7] 1 2 = Except.error err ∧
        specClaimErrorOf err = SpecClaimError.AmountOutOfRange) :=
  partial_claims_sum_bounded idHash 5 1 2 [7] [7] 2 1000 0 apSample [1, 1]
    escSmallDone rfl (by decide)

/-- C7 counterexample.  A successful partial claim of 40 out of 100: the
transition succeeds but the event it emits is a `PartialFill`, which
carries no preimage bytes — an external watcher observing this (first)
partial claim cannot recover the secret from it. -/
theorem partial_claim_event_reveals_no_secret_cex :
    withdraw idHash escBase [7] 40 2 =
      Except.ok ({ escBase with balance := 60, total_filled := 40 },
        Event.PartialFill 5 40 60 2) ∧
    eventRevealedSecret (Event.PartialFill 5 40 60 2) = none := by decide

/-- C7 amended.  A successful claim emits an event containing the preimage
bytes exactly when it completes the fill: a full-filling claim emits
`Redeemed`, which carries the secret, while a partial claim emits
`PartialFill`, which carries no preimage — a watcher can recover the
secret only from the claim that fills the escrow completely, not from an
earlier partial claim. -/
theorem claim_event_secret_only_on_full (H : Bytes → Bytes) (e : Escrow)
    (secret : Bytes) (amount : Nat) (sender : Address) (e' : Escrow) (ev : Event)
    (h : withdraw H e secret amount sender = Except.ok (e', ev)) :
    (e'.total_filled = e'.amount →
      ev = Event.Redeemed e'.id secret amount sender ∧
      eventRevealedSecret ev = some secret) ∧
    (e'.total_filled ≠ e'.amount →
      ev = Event.PartialFill e'.id amount (e'.amount - e'.total_filled) sender ∧
      eventRevealedSecret ev = none) := by
  unfold withdraw at h
  split_ifs at h with h1 h2 h3 h4 h5
  dsimp only [] at h
  split at h <;> rename_i hfull <;>
    simp only [Except.ok.injEq, Prod.mk.injEq] at h <;>
    obtain ⟨he, hev⟩ := h <;>
    subst he <;> subst hev
  · exact ⟨fun _ => ⟨rfl, rfl⟩, fun hc => absurd hfull hc⟩
  · exact ⟨fun hc => absurd hc hfull, fun _ => ⟨rfl, rfl⟩⟩

/-- C7 witness: the amended theorem applied to the concrete partial claim
of 40 out of 100, whose event is a secretless `PartialFill`. -/
theorem claim_event_secret_only_on_full_witness :
    Event.PartialFill 5 40 60 2 =
      Event.PartialFill ({ escBase with balance := 60, total_filled := 40 } : Escrow).id 40
        (({ escBase with balance := 60, total_filled := 40 } : Escrow).amount -
          ({ escBase with balance := 60, total_filled := 40 } : Escrow).total_filled) 2 ∧
    eventRevealedSecret (Event.PartialFill 5 40 60 2) = none :=
  (claim_event_secret_only_on_full idHash escBase [7] 40 2
      { escBase with balance := 60, total_filled := 40 }
      (Event.PartialFill 5 40 60 2) (by decide)).2 (by decide)

/-- C8 counterexample.  A deposit with amount 0 and timelock 5 at ledger
time 10 — both rejection conditions of the claim hold — is not rejected:
the constructor creates the escrow (and emits `Initiated`) unconditionally,
for it performs no validation and never reads the clock. -/
theorem deposit_accepts_zero_amount_and_past_timelock_cex :
    (5 : Nat) ≤ 10 ∧
    deposit 1 2 [7] 0 5 apSample true 10 9 =
      ({ id := 9, initiator := 1, redeemer := 2, secret_hash := [7],
         amount := 0, balance := 0, timelock := 5, auction_params := apSample,
         partial_fills_allowed := true, total_filled := 0 },
       Event.Initiated 9 [7] 0 1 2 5) := by decide

/-- C8 amended.  The deposit constructor performs no validation at all: for
every input — including amount 0 and a timelock at or before the ledger's
current time — it creates the escrow with exactly the given fields, emits
`Initiated`, and its result does not depend on the clock. -/
theorem deposit_is_unconditional (i r : Address) (sh : Bytes) (v t : Nat)
    (ap : AuctionParams) (b : Bool) (now other_now uid : Nat) :
    deposit i r sh v t ap b now uid =
      ({ id := uid, initiator := i, redeemer := r, secret_hash := sh,
         amount := v, balance := v, timelock := t, auction_params := ap,
         partial_fills_allowed := b, total_filled := 0 },
       Event.Initiated uid sh v i r t) ∧
    deposit i r sh v t ap b now uid = deposit i r sh v t ap b other_now uid :=
  ⟨rfl, rfl⟩

/-- C9 counterexample.  At `now = 0` the coordinator's two deadlines are
the Sui-escrow timelock 1200000 ms (side A: its initiator is the
coordinator, the party owning the order's secret, and it is the escrow
deposited after the order is created) and the order expiry 1800000 ms (the
only deadline produced for the other side); the required ordering
`timelock_B + Δ ≤ timelock_A` already fails at safety margin Δ = 0, and a
fortiori at the spec's example margin 300000 ms. -/
theorem swap_timelock_ordering_cex :
    swapEscrowTimelock 0 = 1200000 ∧
    (createFusionOrder [0] [1] 0).expiresAt = 1800000 ∧
    ¬ ((createFusionOrder [0] [1] 0).expiresAt + 0 ≤ swapEscrowTimelock 0) ∧
    ¬ ((createFusionOrder [0] [1] 0).expiresAt + 300000 ≤ swapEscrowTimelock 0) := by
  unfold swapEscrowTimelock createFusionOrder
  refine ⟨?_, ?_, ?_, ?_⟩ <;> (dsimp only []; try omega)

/-- C9 amended.  The coordinator assigns fixed ad-hoc deadlines — the Sui
escrow's timelock `now + 20` minutes and the order's expiry `now + 30`
minutes — with no safety-margin parameter anywhere: the secret-owning
side's timelock sits exactly 600000 ms before the counterparty deadline,
so the required ordering `timelock_B + Δ ≤ timelock_A` fails for every
choice of margin Δ and at every starting time. -/
theorem swap_deadlines_violate_ordering (randDraw1 randDraw2 : Bytes)
    (now margin : Nat) :
    swapEscrowTimelock now + 600000 =
      (createFusionOrder randDraw1 randDraw2 now).expiresAt ∧
    ¬ ((createFusionOrder randDraw1 randDraw2 now).expiresAt + margin ≤
        swapEscrowTimelock now) := by
  constructor
  · show now + 20 * 60 * 1000 + 600000 = now + 30 * 60 * 1000
    omega
  · show ¬ (now + 30 * 60 * 1000 + margin ≤ now + 20 * 60 * 1000)
    omega

/-- C10.  Frame condition: a successful withdraw changes only the held
balance and `total_filled` — the id, initiator, redeemer, secret hash,
timelock, deposited amount, partial-fill flag and auction parameters are
untouched — and a successful refund also preserves all of those and
`total_filled`, changing only the held balance. -/
theorem escrow_fields_frame (H : Bytes → Bytes) (e : Escrow) (secret : Bytes)
    (amount : Nat) (sender : Address) (clock_now : Nat) :
    (∀ e' ev, withdraw H e secret amount sender = Except.ok (e', ev) →
      e'.id = e.id ∧ e'.initiator = e.initiator ∧ e'.redeemer = e.redeemer ∧
      e'.secret_hash = e.secret_hash ∧ e'.timelock = e.timelock ∧
      e'.amount = e.amount ∧
      e'.partial_fills_allowed = e.partial_fills_allowed ∧
      e'.auction_params = e.auction_params) ∧
    (∀ e' oev, refund e clock_now sender = Except.ok (e', oev) →
      e'.id = e.id ∧ e'.initiator = e.initiator ∧ e'.redeemer = e.redeemer ∧
      e'.secret_hash = e.secret_hash ∧ e'.timelock = e.timelock ∧
      e'.amount = e.amount ∧
      e'.partial_fills_allowed = e.partial_fills_allowed ∧
      e'.auction_params = e.auction_params ∧
      e'.total_filled = e.total_filled) := by
  constructor
  · intro e' ev h
    obtain ⟨_, _, _, _, _, he⟩ := withdraw_ok_elim h
    subst he
    exact ⟨rfl, rfl, rfl, rfl, rfl, rfl, rfl, rfl⟩
  · intro e' oev h
    unfold refund at h
    split_ifs at h with h1 h2
    dsimp only [] at h
    split at h <;>
      simp only [Except.ok.injEq, Prod.mk.injEq] at h <;>
      obtain ⟨he, _⟩ := h <;> subst he
    · exact ⟨rfl, rfl, rfl, rfl, rfl, rfl, rfl, rfl, rfl⟩
    · exact ⟨rfl, rfl, rfl, rfl, rfl, rfl, rfl, rfl, rfl⟩

/-- C10 witness: the frame condition at a concrete partial claim of 40 on
the sample escrow and at a concrete refund of the 70 left in `escMid`. -/
theorem escrow_fields_frame_witness :
    (({ escBase with balance := 60, total_filled := 40 } : Escrow).secret_hash
        = escBase.secret_hash ∧
      ({ escBase with balance := 60, total_filled := 40 } : Escrow).timelock
        = escBase.timelock) ∧
    escRefunded.total_filled = escMid.total_filled := by
  refine ⟨?_, ?_⟩
  · have h := (escrow_fields_frame idHash escBase [7] 40 2 1001).1
      { escBase with balance := 60, total_filled := 40 }
      (Event.PartialFill 5 40 60 2) (by decide)
    exact ⟨h.2.2.2.1, h.2.2.2.2.1⟩
  · have h := (escrow_fields_frame idHash escMid [7] 40 1 1001).2
      escRefunded (some (Event.Refunded 5 70 1)) (by decide)
    exact h.2.2.2.2.2.2.2.2

end HtlcEscrow
